import Mathlib

/-!
Verification of the real-time voice session engine of the
`gemini-live-ai-studio` repository.

The development shallowly embeds the relevant source code:

* the PCM codec (`float32ToInt16`, `int16ToFloat32`, `decodeAudioData`
  from the audio-utilities module);
* the playback scheduler (the audio-handling portion of `onmessage` in
  `useLiveGemini.ts`);
* the transcript assembler (turn-complete and interruption handling in
  `onmessage`);
* the tool-call orchestrator (`retrieveContextTool` and the tool-call
  branch of `onmessage`);
* the session state machine (`connect` guard, `disconnect`, `onerror`).

Audio samples and device-clock times are modelled as rationals (the
JavaScript numbers involved are exact in the ranges used, except for the
float rounding of products, which the spec's quantization-step bound
absorbs); assignment of a JavaScript number to an `Int16Array` slot
truncates toward zero, modelled by `ratTrunc`.  Side effects (emitted
transcript entries, callbacks, network sends, source stop/start) are
modelled as an explicit output trace.
-/

/-! ## PCM codec (audio utilities module) -/

/-- Truncation toward zero, the conversion JavaScript applies when a
number is stored into an `Int16Array` slot (no wrap-around occurs here
because the codec clamps first). -/
def ratTrunc (q : ℚ) : ℤ :=
  if 0 ≤ q then ⌊q⌋ else ⌈q⌉

/-- The clamp `Math.max(-1, Math.min(1, x))` applied per sample by
`float32ToInt16`. -/
def clampSample (x : ℚ) : ℚ :=
  max (-1) (min 1 x)

/-- Per-sample body of `float32ToInt16`:
`const s = Math.max(-1, Math.min(1, float32[i])); int16[i] = s < 0 ? s * 0x8000 : s * 0x7FFF;`. -/
def float32ToInt16Sample (x : ℚ) : ℤ :=
  let s := clampSample x
  if s < 0 then ratTrunc (s * 32768) else ratTrunc (s * 32767)

/-- Per-sample body of `int16ToFloat32`:
`const s = int16[i]; float32[i] = s < 0 ? s / 0x8000 : s / 0x7FFF;`. -/
def int16ToFloat32Sample (i : ℤ) : ℚ :=
  if i < 0 then (i : ℚ) / 32768 else (i : ℚ) / 32767

/-- `float32ToInt16` lifted to a frame of samples. -/
def float32ToInt16 (xs : List ℚ) : List ℤ :=
  xs.map float32ToInt16Sample

/-- `int16ToFloat32` lifted to a frame of samples. -/
def int16ToFloat32 (is : List ℤ) : List ℚ :=
  is.map int16ToFloat32Sample

/-- Per-sample body of the playback-path decoder `decodeAudioData`:
`channelData[i] = dataInt16[i * numChannels + channel] / 32768.0;` —
a uniform division by 32768, for negative and non-negative samples alike. -/
def decodeAudioDataSample (i : ℤ) : ℚ :=
  (i : ℚ) / 32768

/-- `decodeAudioData` lifted to a frame of int16 samples (single channel). -/
def decodeAudioData (is : List ℤ) : List ℚ :=
  is.map decodeAudioDataSample

theorem ratTrunc_intCast (i : ℤ) : ratTrunc (i : ℚ) = i := by
  unfold ratTrunc
  by_cases h : (0 : ℚ) ≤ (i : ℚ) <;> simp [h]

theorem ratTrunc_le_of_nonneg (q : ℚ) (h : 0 ≤ q) :
    (ratTrunc q : ℚ) ≤ q ∧ q - 1 < (ratTrunc q : ℚ) := by
  unfold ratTrunc
  rw [if_pos h]
  constructor
  · exact Int.floor_le q
  · have := Int.lt_floor_add_one q
    linarith

theorem ratTrunc_ge_of_nonpos (q : ℚ) (h : ¬ 0 ≤ q) :
    q ≤ (ratTrunc q : ℚ) ∧ (ratTrunc q : ℚ) < q + 1 := by
  unfold ratTrunc
  rw [if_neg h]
  constructor
  · exact Int.le_ceil q
  · exact Int.ceil_lt_add_one q

theorem clampSample_eq_self (x : ℚ) (h1 : -1 ≤ x) (h2 : x ≤ 1) :
    clampSample x = x := by
  unfold clampSample
  rw [min_eq_right h2, max_eq_right h1]

/-- C3: round-trip bounded-error law for a single sample. -/
theorem int16_roundtrip_within_quantization_step (x : ℚ)
    (h1 : -1 ≤ x) (h2 : x ≤ 1) :
    |int16ToFloat32Sample (float32ToInt16Sample x) - x| ≤ 1 / 32767 := by
  unfold float32ToInt16Sample
  rw [clampSample_eq_self x h1 h2]
  by_cases hx : x < 0
  · rw [if_pos hx]
    have hq : ¬ (0 : ℚ) ≤ x * 32768 := by nlinarith
    obtain ⟨hle, hlt⟩ := ratTrunc_ge_of_nonpos (x * 32768) hq
    set i := ratTrunc (x * 32768) with hi
    by_cases hineg : i < 0
    · unfold int16ToFloat32Sample
      rw [if_pos hineg]
      rw [abs_le]
      constructor
      · rw [div_sub' _ _ _ (by norm_num : (32768 : ℚ) ≠ 0)]
        rw [le_div_iff (by norm_num : (0 : ℚ) < 32768)]
        nlinarith
      · rw [div_sub' _ _ _ (by norm_num : (32768 : ℚ) ≠ 0)]
        rw [div_le_iff (by norm_num : (0 : ℚ) < 32768)]
        nlinarith
    · unfold int16ToFloat32Sample
      rw [if_neg hineg]
      push_neg at hineg
      have hile : (i : ℚ) ≤ 0 := by
        have : i ≤ 0 := by
          by_contra hc
          push_neg at hc
          have : (1 : ℚ) ≤ (i : ℚ) := by exact_mod_cast hc
          nlinarith
        exact_mod_cast this
      have hizero : (i : ℚ) = 0 := le_antisymm hile (by exact_mod_cast hineg)
      rw [hizero]
      rw [abs_le]
      constructor
      · nlinarith
      · nlinarith
  · rw [if_neg hx]
    push_neg at hx
    have hq : (0 : ℚ) ≤ x * 32767 := by nlinarith
    obtain ⟨hle, hlt⟩ := ratTrunc_le_of_nonneg (x * 32767) hq
    set i := ratTrunc (x * 32767) with hi
    have hinneg : ¬ i < 0 := by
      rw [not_lt]
      by_contra hc
      push_neg at hc
      have hc1 : i ≤ -1 := by omega
      have : (i : ℚ) ≤ -1 := by exact_mod_cast hc1
      nlinarith
    unfold int16ToFloat32Sample
    rw [if_neg hinneg]
    rw [abs_le]
    constructor
    · rw [div_sub' _ _ _ (by norm_num : (32767 : ℚ) ≠ 0)]
      rw [le_div_iff (by norm_num : (0 : ℚ) < 32767)]
      nlinarith
    · rw [div_sub' _ _ _ (by norm_num : (32767 : ℚ) ≠ 0)]
      rw [div_le_iff (by norm_num : (0 : ℚ) < 32767)]
      nlinarith

theorem int16_roundtrip_witness :
    (-1 ≤ (1 / 2 : ℚ) ∧ (1 / 2 : ℚ) ≤ 1) ∧
      |int16ToFloat32Sample (float32ToInt16Sample (1 / 2)) - 1 / 2| ≤ 1 / 32767 :=
  ⟨⟨by norm_num, by norm_num⟩,
    int16_roundtrip_within_quantization_step (1 / 2) (by norm_num) (by norm_num)⟩

/-- C8 counterexample: the reverse conversion applied to inbound audio
before playback (`decodeAudioData`) divides the non-negative sample 32767
by 32768, not by 32767 as the asymmetric-policy claim states. -/
theorem decodeAudioData_not_asymmetric :
    decodeAudioDataSample 32767 = (32767 : ℚ) / 32768 ∧
      decodeAudioDataSample 32767 ≠ (32767 : ℚ) / 32767 := by
  constructor
  · rfl
  · unfold decodeAudioDataSample
    norm_num

/-- C8 amended: `float32ToInt16` clamps to [-1, 1] and scales by 32768 on
the negative side and 32767 on the non-negative side (exactly on grid
points of the respective scale); `int16ToFloat32` divides by the same
asymmetric constants; but the playback-path decoder `decodeAudioData`
divides every sample, negative or not, uniformly by 32768. -/
theorem pcm_conversion_policy (x : ℚ) (i : ℤ) :
    (x ≤ -1 → float32ToInt16Sample x = -32768) ∧
    (1 ≤ x → float32ToInt16Sample x = 32767) ∧
    (-32768 ≤ i → i ≤ 0 → float32ToInt16Sample ((i : ℚ) / 32768) = i) ∧
    (0 ≤ i → i ≤ 32767 → float32ToInt16Sample ((i : ℚ) / 32767) = i) ∧
    (i < 0 → int16ToFloat32Sample i = (i : ℚ) / 32768) ∧
    (0 ≤ i → int16ToFloat32Sample i = (i : ℚ) / 32767) ∧
    decodeAudioDataSample i = (i : ℚ) / 32768 := by
  refine ⟨?_, ?_, ?_, ?_, ?_, ?_, rfl⟩
  · intro h
    have hclamp : clampSample x = -1 := by
      unfold clampSample
      rw [min_eq_right (by linarith : x ≤ 1), max_eq_left h]
    unfold float32ToInt16Sample
    rw [hclamp, if_pos (by norm_num : (-1 : ℚ) < 0)]
    have hcast : ((-1 : ℚ) * 32768) = (((-32768 : ℤ) : ℚ)) := by norm_num
    rw [hcast, ratTrunc_intCast]
  · intro h
    have hclamp : clampSample x = 1 := by
      unfold clampSample
      rw [min_eq_left h, max_eq_right (by norm_num : (-1 : ℚ) ≤ 1)]
    unfold float32ToInt16Sample
    rw [hclamp, if_neg (by norm_num : ¬ (1 : ℚ) < 0)]
    have hcast : ((1 : ℚ) * 32767) = (((32767 : ℤ) : ℚ)) := by norm_num
    rw [hcast, ratTrunc_intCast]
  · intro hlo hhi
    have hlo' : (-32768 : ℚ) ≤ (i : ℚ) := by exact_mod_cast hlo
    have hhi' : ((i : ℚ)) ≤ 0 := by exact_mod_cast hhi
    have hclamp : clampSample ((i : ℚ) / 32768) = (i : ℚ) / 32768 := by
      apply clampSample_eq_self
      · rw [le_div_iff₀ (by norm_num : (0 : ℚ) < 32768)]
        linarith
      · rw [div_le_iff₀ (by norm_num : (0 : ℚ) < 32768)]
        linarith
    unfold float32ToInt16Sample
    rw [hclamp]
    have hmul : (i : ℚ) / 32768 * 32768 = (i : ℚ) := by
      field_simp
    by_cases hneg : (i : ℚ) / 32768 < 0
    · rw [if_pos hneg, hmul, ratTrunc_intCast]
    · rw [if_neg hneg]
      push_neg at hneg
      have hz : (i : ℚ) = 0 := by
        have : (0 : ℚ) ≤ (i : ℚ) := by
          have := (le_div_iff₀ (by norm_num : (0 : ℚ) < 32768)).mp hneg
          linarith
        linarith
      have hiz : i = 0 := by exact_mod_cast hz
      rw [hiz]
      norm_num [ratTrunc]
  · intro hlo hhi
    have hlo' : (0 : ℚ) ≤ (i : ℚ) := by exact_mod_cast hlo
    have hhi' : ((i : ℚ)) ≤ 32767 := by exact_mod_cast hhi
    have hclamp : clampSample ((i : ℚ) / 32767) = (i : ℚ) / 32767 := by
      apply clampSample_eq_self
      · rw [le_div_iff₀ (by norm_num : (0 : ℚ) < 32767)]
        linarith
      · rw [div_le_iff₀ (by norm_num : (0 : ℚ) < 32767)]
        linarith
    unfold float32ToInt16Sample
    rw [hclamp]
    have hnneg : ¬ ((i : ℚ) / 32767 < 0) := by
      push_neg
      positivity
    rw [if_neg hnneg]
    have hmul : (i : ℚ) / 32767 * 32767 = (i : ℚ) := by
      field_simp
    rw [hmul, ratTrunc_intCast]
  · intro h
    unfold int16ToFloat32Sample
    rw [if_pos h]
  · intro h
    unfold int16ToFloat32Sample
    rw [if_neg (by omega : ¬ i < 0)]

theorem pcm_conversion_policy_witness :
    float32ToInt16Sample ((-1 : ℚ)) = -32768 ∧
      decodeAudioDataSample 5 = (5 : ℚ) / 32768 :=
  ⟨(pcm_conversion_policy (-1) 5).1 (le_refl (-1)),
    (pcm_conversion_policy (-1) 5).2.2.2.2.2.2⟩

/-! ## Playback scheduler (audio handling inside `onmessage`)

The enqueue of one decoded buffer follows `useLiveGemini.ts`:

  nextStartTimeRef.current = Math.max(nextStartTimeRef.current, ctx.currentTime);
  ...
  source.start(nextStartTimeRef.current);
  nextStartTimeRef.current += audioBuffer.duration;

`deviceNow` stands for `ctx.currentTime` at the moment the buffer is
enqueued. -/

/-- One enqueue step: given the cursor, the device clock at enqueue time
and the buffer's duration, returns the scheduled start time and the new
cursor. -/
def enqueueAudio (cursor deviceNow dur : ℚ) : ℚ × ℚ :=
  (max cursor deviceNow, max cursor deviceNow + dur)

/-- Start times produced by successively enqueuing a list of buffers,
each given as (device clock at enqueue, duration), from an initial
cursor. -/
def scheduleStarts (cursor : ℚ) : List (ℚ × ℚ) → List ℚ
  | [] => []
  | b :: rest =>
      let r := enqueueAudio cursor b.1 b.2
      r.1 :: scheduleStarts r.2 rest

theorem scheduleStarts_length (cursor : ℚ) (l : List (ℚ × ℚ)) :
    (scheduleStarts cursor l).length = l.length := by
  induction l generalizing cursor with
  | nil => rfl
  | cons b rest ih =>
      simp [scheduleStarts, ih]

/-- C2 counterexample: two buffers enqueued with no intervening flush;
the first starts at 0 with duration 1, but before the second enqueue the
device clock has advanced to 5, so the code (which raises the cursor to
the device clock at every enqueue, not only after a flush) schedules the
second buffer at 5, not at 0 + 1. -/
theorem playback_contiguity_fails :
    (scheduleStarts 0 [(0, 1), (5, 1)]).getD 1 0 ≠
      (scheduleStarts 0 [(0, 1), (5, 1)]).getD 0 0 + (1 : ℚ) := by
  have h : scheduleStarts 0 [((0 : ℚ), 1), (5, 1)] = [0, 5] := by
    simp only [scheduleStarts, enqueueAudio]
    norm_num [max_eq_right, max_self]
  rw [h]
  simp only [List.getD, List.get?, Option.getD]
  norm_num

/-- C2 amended: the code raises the playback cursor to the current device
time at every enqueue (`max(cursor, deviceNow)`), not only for the first
buffer after a flush; consequently buffer k starts exactly at buffer
(k-1)'s start plus its duration whenever the device clock at enqueue k
has not overtaken that point (playback keeping ahead of arrival). -/
theorem playback_contiguity (cursor : ℚ) (l : List (ℚ × ℚ)) (i : ℕ)
    (hlen : i + 1 < l.length)
    (hahead : (l.getD (i + 1) (0, 0)).1 ≤
      (scheduleStarts cursor l).getD i 0 + (l.getD i (0, 0)).2) :
    (scheduleStarts cursor l).getD (i + 1) 0 =
      (scheduleStarts cursor l).getD i 0 + (l.getD i (0, 0)).2 := by
  induction i generalizing cursor l with
  | zero =>
      match l, hlen with
      | (n0, d0) :: (n1, d1) :: rest, _ =>
          simp only [scheduleStarts, enqueueAudio, List.getD] at hahead ⊢
          simp only [List.get?, Option.getD] at hahead ⊢
          exact max_eq_left hahead
  | succ k ih =>
      match l, hlen with
      | (n0, d0) :: rest, hlen =>
          have hlen' : k + 1 < rest.length := by
            simpa using hlen
          have hahead' : (rest.getD (k + 1) (0, 0)).1 ≤
              (scheduleStarts (max cursor n0 + d0) rest).getD k 0 +
                (rest.getD k (0, 0)).2 := by
            simpa [scheduleStarts, enqueueAudio] using hahead
          have := ih (max cursor n0 + d0) rest hlen' hahead'
          simpa [scheduleStarts, enqueueAudio] using this

theorem playback_contiguity_witness :
    (0 + 1 < ([((0 : ℚ), (2 : ℚ)), (1, 3)]).length ∧
      (([((0 : ℚ), (2 : ℚ)), (1, 3)]).getD 1 (0, 0)).1 ≤
        (scheduleStarts 0 [((0 : ℚ), 2), (1, 3)]).getD 0 0 +
          (([((0 : ℚ), (2 : ℚ)), (1, 3)]).getD 0 (0, 0)).2) ∧
    (scheduleStarts 0 [((0 : ℚ), 2), (1, 3)]).getD 1 0 =
      (scheduleStarts 0 [((0 : ℚ), 2), (1, 3)]).getD 0 0 +
        (([((0 : ℚ), (2 : ℚ)), (1, 3)]).getD 0 (0, 0)).2 :=
  have hahead : (([((0 : ℚ), (2 : ℚ)), (1, 3)]).getD 1 (0, 0)).1 ≤
      (scheduleStarts 0 [((0 : ℚ), 2), (1, 3)]).getD 0 0 +
        (([((0 : ℚ), (2 : ℚ)), (1, 3)]).getD 0 (0, 0)).2 := by
    simp only [scheduleStarts, enqueueAudio, List.getD, List.get?, Option.getD]
    norm_num [max_self]
  ⟨⟨by decide, hahead⟩,
    playback_contiguity 0 [((0 : ℚ), 2), (1, 3)] 0 (by decide) hahead⟩

/-! ## Engine state, inbound messages and the output trace

`EngineState` collects the mutable refs and React state of
`useLiveGemini.ts`; `Output` records the externally visible side effects
(emitted transcript entries, callbacks invoked, messages sent on the
transport, audio sources started/stopped, teardown).  `Env` carries the
external oracles: the device clock, the wall clock used for entry ids,
the playback-path audio decoder (which can throw on malformed data) and
the retrieval backend (which can fail). -/

inductive ConnectionState where
  | DISCONNECTED
  | CONNECTING
  | CONNECTED
  | ERROR
deriving DecidableEq, Repr

inductive Sender where
  | user
  | model
deriving DecidableEq, Repr

structure RetrievalResult where
  context : String
  sources : List String
deriving DecidableEq, Repr

inductive ToolPayload where
  | result (r : RetrievalResult)
  | error (msg : String)
deriving DecidableEq, Repr

structure FunctionCall where
  id : String
  name : String
  argsQuery : Option String
  argsTopK : Option Int
deriving DecidableEq, Repr

structure FunctionResponse where
  id : String
  name : String
  response : ToolPayload
deriving DecidableEq, Repr

inductive Output where
  | transcription (id : String) (text : String) (sender : Sender)
  | userFinalText (text : String)
  | sourcesEvent (srcs : List String)
  | toolResponse (rs : List FunctionResponse)
  | retrieveInvoked (query : String) (topK : Option Int)
  | startSource (sid : ℕ) (start dur : ℚ)
  | stopSource (sid : ℕ)
  | logError (msg : String)
  | teardown
deriving DecidableEq, Repr

structure EngineState where
  connState : ConnectionState
  errorMsg : Option String
  ctxOpen : Bool
  sessionOpen : Bool
  cursor : ℚ
  nextId : ℕ
  active : List ℕ
  userBuf : String
  modelBuf : String
deriving DecidableEq, Repr

/-- The `serverContent` field of an inbound message: audio parts (each
part's optional base64 `inlineData`), the interruption flag, the two
optional transcription deltas and the turn-complete flag. -/
structure ServerContent where
  parts : List (Option String)
  interrupted : Bool
  outputTranscriptionText : Option String
  inputTranscriptionText : Option String
  turnComplete : Bool
deriving DecidableEq, Repr

structure LiveServerMessage where
  toolCall : Option (List FunctionCall)
  serverContent : Option ServerContent
deriving DecidableEq, Repr

structure Env where
  now : ℚ
  clock : ℕ
  decodeAudio : String → Except String ℚ
  fetchRetrieve : String → Option Int → Except String RetrievalResult

/-- JavaScript's `String.prototype.trim`: strip leading and trailing
whitespace (modelled structurally so that it evaluates in the kernel). -/
def trimString (s : String) : String :=
  String.mk
    (((s.data.dropWhile Char.isWhitespace).reverse.dropWhile
      Char.isWhitespace).reverse)

/-! ## Tool-call orchestrator -/

/-- `retrieveContextTool`: performs the backend fetch and swallows any
failure into the degraded payload
`{ context: "Error retrieving context.", sources: [] }`. -/
def retrieveContextTool (env : Env) (query : String) (top_k : Option Int) :
    RetrievalResult :=
  match env.fetchRetrieve query top_k with
  | .ok r => r
  | .error _ => { context := "Error retrieving context.", sources := [] }

/-- Normalization of the `top_k` argument:
`fc.args?.top_k ? Number(fc.args.top_k) : undefined` (a present but zero
`top_k` is falsy and becomes undefined). -/
def normTopK : Option Int → Option Int
  | some k => if k = 0 then none else some k
  | none => none

/-- One iteration of the `for (const fc of toolCall.functionCalls)` loop:
the tagged response pushed for this call, plus the side effects it
produces (the backend invocation and the forwarded source citations for
a recognized call; nothing for an unknown tool). -/
def respondOne (env : Env) (fc : FunctionCall) :
    FunctionResponse × List Output :=
  if fc.name = "retrieve_context" then
    let query := trimString (fc.argsQuery.getD "")
    let top_k := normTopK fc.argsTopK
    let result := retrieveContextTool env query top_k
    ({ id := fc.id, name := fc.name, response := .result result },
      [Output.retrieveInvoked query top_k, Output.sourcesEvent result.sources])
  else
    ({ id := fc.id, name := fc.name,
        response := .error ("Unknown tool: " ++ fc.name) }, [])

/-- The whole loop, accumulating `functionResponses` in order. -/
def handleToolCalls (env : Env) : List FunctionCall →
    List FunctionResponse × List Output
  | [] => ([], [])
  | fc :: rest =>
      let r := respondOne env fc
      let rs := handleToolCalls env rest
      (r.1 :: rs.1, r.2 ++ rs.2)

/-! ## Transcript assembler -/

/-- The `turnComplete` block of `onmessage`: trim each buffer; a
non-empty trimmed buffer emits one transcript entry (user first, with
the `onUserFinalText` callback fired in between) and is cleared;
otherwise the buffer is left alone.  Returns the outputs in emission
order together with the two buffers' new contents. -/
def finalizeTurn (clock : ℕ) (userBuf modelBuf : String) :
    List Output × String × String :=
  let userFinal := trimString userBuf
  let step1 :=
    if userFinal ≠ "" then
      ([Output.transcription (toString clock ++ "-user") userFinal Sender.user,
        Output.userFinalText userFinal], "")
    else ([], userBuf)
  let modelFinal := trimString modelBuf
  let step2 :=
    if modelFinal ≠ "" then
      ([Output.transcription (toString clock ++ "-model") modelFinal
        Sender.model], "")
    else ([], modelBuf)
  (step1.1 ++ step2.1, step1.2, step2.2)

/-! ## Inbound message processing (`onmessage`) -/

/-- The audio-part loop of `onmessage`.  Each part carrying inline data
raises the cursor to the device clock, decodes, schedules the buffer at
the cursor and advances the cursor by its duration; a decode failure
surfaces as the thrown error (third component), with the effects of the
parts already processed kept. -/
def processParts (env : Env) (st : EngineState) :
    List (Option String) → EngineState × List Output × Option String
  | [] => (st, [], none)
  | none :: rest => processParts env st rest
  | some b64 :: rest =>
      let cursor1 := max st.cursor env.now
      match env.decodeAudio b64 with
      | .error e => ({ st with cursor := cursor1 }, [], some e)
      | .ok dur =>
          let sid := st.nextId
          let st1 := { st with
              cursor := cursor1 + dur, nextId := sid + 1,
              active := st.active ++ [sid] }
          let r := processParts env st1 rest
          (r.1, Output.startSource sid cursor1 dur :: r.2.1, r.2.2)

/-- The `serverContent.interrupted` block: stop every active source,
empty the active set, reset the cursor to the device clock and discard
the in-progress model utterance. -/
def handleInterrupted (env : Env) (st : EngineState) :
    EngineState × List Output :=
  ({ st with active := [], cursor := env.now, modelBuf := "" },
    st.active.map Output.stopSource)

/-- The transcription-delta appends (`if (...text)` truthiness: an
absent or empty delta appends nothing). -/
def appendDeltas (sc : ServerContent) (st : EngineState) : EngineState :=
  let st1 :=
    match sc.outputTranscriptionText with
    | some t => if t ≠ "" then { st with modelBuf := st.modelBuf ++ t } else st
    | none => st
  match sc.inputTranscriptionText with
  | some t => if t ≠ "" then { st1 with userBuf := st1.userBuf ++ t } else st1
  | none => st1

/-- The `serverContent` path of `onmessage`: audio parts, then the
interruption flag, then transcription deltas, then turn completion; a
throw while decoding a part skips the remainder of this message (outer
catch), logging the error. -/
def processContent (env : Env) (st : EngineState) (sc : ServerContent) :
    EngineState × List Output :=
  let r1 := processParts env st sc.parts
  match r1.2.2 with
  | some e => (r1.1, r1.2.1 ++ [Output.logError e])
  | none =>
      let st1 := r1.1
      let r2 := if sc.interrupted then handleInterrupted env st1
                else (st1, [])
      let st2 := appendDeltas sc r2.1
      if sc.turnComplete then
        let r3 := finalizeTurn env.clock st2.userBuf st2.modelBuf
        ({ st2 with userBuf := r3.2.1, modelBuf := r3.2.2 },
          r1.2.1 ++ r2.2 ++ r3.1)
      else
        (st2, r1.2.1 ++ r2.2)

/-- `onmessage`: early return when the output audio context is gone;
the tool-call branch (which sends exactly one outbound tool-response
message for the whole batch and returns, provided a session handle is
available); otherwise the server-content path.  The whole body runs
under a try/catch, so no branch touches the connection state or tears
the session down. -/
def onmessage (env : Env) (st : EngineState) (msg : LiveServerMessage) :
    EngineState × List Output :=
  if st.ctxOpen = false then (st, [])
  else
    match msg.toolCall with
    | some fcs =>
        if fcs.isEmpty then
          match msg.serverContent with
          | some sc => processContent env st sc
          | none => (st, [])
        else if st.sessionOpen = false then (st, [])
        else
          let r := handleToolCalls env fcs
          (st, r.2 ++ [Output.toolResponse r.1])
    | none =>
        match msg.serverContent with
        | some sc => processContent env st sc
        | none => (st, [])

/-! ## Session state machine -/

/-- `disconnect`: the single idempotent teardown routine — close both
audio contexts, stop and drop every active source, set state
DISCONNECTED, reset the cursor and drop the session handle.  The
recorded error message is not touched. -/
def disconnect (st : EngineState) : EngineState × List Output :=
  ({ st with
      connState := ConnectionState.DISCONNECTED, ctxOpen := false,
      sessionOpen := false, cursor := 0, active := [] },
    st.active.map Output.stopSource ++ [Output.teardown])

/-- The `onerror` transport callback: record "Connection Error", then
run the teardown routine. -/
def onerror (st : EngineState) : EngineState × List Output :=
  disconnect { st with errorMsg := some "Connection Error" }

/-- The `onclose` transport callback: teardown only. -/
def onclose (st : EngineState) : EngineState × List Output :=
  disconnect st

/-- The synchronous prefix of `connect`: the credentials guard
(`if (!apiKey) { setError("API Key is missing"); return; }`), and on a
non-empty key the transition into CONNECTING with the error cleared.
The returned trace lists the connection states entered. -/
def connectStart (apiKey : String) (st : EngineState) :
    EngineState × List ConnectionState :=
  if apiKey = "" then
    ({ st with errorMsg := some "API Key is missing" }, [])
  else
    ({ st with connState := ConnectionState.CONNECTING, errorMsg := none },
      [ConnectionState.CONNECTING])

/-- A message whose server content carries only the interruption flag. -/
def interruptedOnlyMsg : LiveServerMessage :=
  { toolCall := none,
    serverContent := some
      { parts := [], interrupted := true, outputTranscriptionText := none,
        inputTranscriptionText := none, turnComplete := false } }

/-! ## Theorems: session state machine -/

/-- C1 counterexample: from a CONNECTED state, the transport-error
callback records the error message and tears down, but the resulting
connection state is DISCONNECTED, not ERROR as the claim states. -/
theorem onerror_yields_DISCONNECTED_not_ERROR :
    (onerror ⟨ConnectionState.CONNECTED, none, true, true, 2, 3, [0], "u",
        "m"⟩).1.connState = ConnectionState.DISCONNECTED ∧
      (onerror ⟨ConnectionState.CONNECTED, none, true, true, 2, 3, [0], "u",
          "m"⟩).1.connState ≠ ConnectionState.ERROR := by
  constructor
  · rfl
  · intro h
    simp [onerror, disconnect] at h

/-- C1 amended: on a mid-session transport error the engine records the
error message "Connection Error" and performs the teardown routine, but
the externally visible connection state after teardown is DISCONNECTED
(the teardown routine's terminal state), not ERROR; the error message
remains recorded and the teardown is complete (contexts closed, sources
gone, session handle dropped). -/
theorem onerror_records_error_and_tears_down (st : EngineState) :
    (onerror st).1.errorMsg = some "Connection Error" ∧
    (onerror st).1.connState = ConnectionState.DISCONNECTED ∧
    (onerror st).1.active = [] ∧
    (onerror st).1.ctxOpen = false ∧
    (onerror st).1.sessionOpen = false ∧
    Output.teardown ∈ (onerror st).2 := by
  simp [onerror, disconnect]

/-- C9: `connect` with an empty API key records the configuration error
message, never enters CONNECTING, and leaves the connection state
DISCONNECTED. -/
theorem connect_missing_api_key (apiKey : String) (st : EngineState)
    (hkey : apiKey = "")
    (hst : st.connState = ConnectionState.DISCONNECTED) :
    (connectStart apiKey st).1.errorMsg = some "API Key is missing" ∧
    ConnectionState.CONNECTING ∉ (connectStart apiKey st).2 ∧
    (connectStart apiKey st).1.connState = ConnectionState.DISCONNECTED := by
  subst hkey
  refine ⟨?_, ?_, ?_⟩ <;> simp [connectStart, hst]

theorem connect_missing_api_key_witness :
    (("" : String) = "" ∧
      (EngineState.mk ConnectionState.DISCONNECTED none false false 0 0 []
          "" "").connState = ConnectionState.DISCONNECTED) ∧
    ((connectStart ""
        (EngineState.mk ConnectionState.DISCONNECTED none false false 0 0 []
          "" "")).1.errorMsg = some "API Key is missing" ∧
      ConnectionState.CONNECTING ∉ (connectStart ""
        (EngineState.mk ConnectionState.DISCONNECTED none false false 0 0 []
          "" "")).2 ∧
      (connectStart ""
        (EngineState.mk ConnectionState.DISCONNECTED none false false 0 0 []
          "" "")).1.connState = ConnectionState.DISCONNECTED) :=
  ⟨⟨rfl, rfl⟩, connect_missing_api_key "" _ rfl rfl⟩

/-! ## Theorems: interruption handling -/

/-- C5: an inbound interruption signal stops every active source,
empties the active set, resets the playback cursor to the current device
time, clears the model transcript buffer and leaves the user transcript
buffer unchanged, from any state (including an empty active set). -/
theorem interruption_flushes_and_clears_model_buffer (env : Env)
    (st : EngineState) (hctx : st.ctxOpen = true) :
    (onmessage env st interruptedOnlyMsg).1.active = [] ∧
    (onmessage env st interruptedOnlyMsg).1.cursor = env.now ∧
    (onmessage env st interruptedOnlyMsg).1.modelBuf = "" ∧
    (onmessage env st interruptedOnlyMsg).1.userBuf = st.userBuf ∧
    (onmessage env st interruptedOnlyMsg).2 =
      st.active.map Output.stopSource := by
  refine ⟨?_, ?_, ?_, ?_, ?_⟩ <;>
    simp [onmessage, interruptedOnlyMsg, processContent, processParts,
      handleInterrupted, appendDeltas, hctx]

theorem interruption_flushes_witness :
    ((EngineState.mk ConnectionState.CONNECTED none true true 5 7 [3, 4]
        "u" "m").ctxOpen = true) ∧
    ((onmessage
        (Env.mk 9 0 (fun _ => Except.error "e") (fun _ _ => Except.error "e"))
        (EngineState.mk ConnectionState.CONNECTED none true true 5 7 [3, 4]
          "u" "m") interruptedOnlyMsg).1.active = [] ∧
      (onmessage
        (Env.mk 9 0 (fun _ => Except.error "e") (fun _ _ => Except.error "e"))
        (EngineState.mk ConnectionState.CONNECTED none true true 5 7 [3, 4]
          "u" "m") interruptedOnlyMsg).1.cursor =
        (Env.mk 9 0 (fun _ => Except.error "e")
          (fun _ _ => Except.error "e")).now ∧
      (onmessage
        (Env.mk 9 0 (fun _ => Except.error "e") (fun _ _ => Except.error "e"))
        (EngineState.mk ConnectionState.CONNECTED none true true 5 7 [3, 4]
          "u" "m") interruptedOnlyMsg).1.modelBuf = "" ∧
      (onmessage
        (Env.mk 9 0 (fun _ => Except.error "e") (fun _ _ => Except.error "e"))
        (EngineState.mk ConnectionState.CONNECTED none true true 5 7 [3, 4]
          "u" "m") interruptedOnlyMsg).1.userBuf =
        (EngineState.mk ConnectionState.CONNECTED none true true 5 7 [3, 4]
          "u" "m").userBuf ∧
      (onmessage
        (Env.mk 9 0 (fun _ => Except.error "e") (fun _ _ => Except.error "e"))
        (EngineState.mk ConnectionState.CONNECTED none true true 5 7 [3, 4]
          "u" "m") interruptedOnlyMsg).2 =
        (EngineState.mk ConnectionState.CONNECTED none true true 5 7 [3, 4]
          "u" "m").active.map Output.stopSource) :=
  ⟨rfl, interruption_flushes_and_clears_model_buffer _ _ rfl⟩

/-! ## Theorems: turn completion -/

def isUserEntry : Output → Bool
  | .transcription _ _ Sender.user => true
  | _ => false

def isModelEntry : Output → Bool
  | .transcription _ _ Sender.model => true
  | _ => false

def isUserFinalEvent : Output → Bool
  | .userFinalText _ => true
  | _ => false

/-- C4: on turn completion, a buffer whose trimmed content is non-empty
yields exactly one transcript entry carrying that trimmed text and the
matching sender and is cleared; a buffer trimming to empty yields no
entry; the user-final callback fires exactly when a user entry is
emitted; and every user-side event (entry and callback) precedes the
model entry in the emission order. -/
theorem turn_complete_finalization (clock : ℕ) (u m : String) :
    ((finalizeTurn clock u m).1.filter isUserEntry =
        if trimString u = "" then []
        else [Output.transcription (toString clock ++ "-user")
          (trimString u) Sender.user]) ∧
    ((finalizeTurn clock u m).1.filter isUserFinalEvent =
        if trimString u = "" then [] else [Output.userFinalText (trimString u)]) ∧
    ((finalizeTurn clock u m).1.filter isModelEntry =
        if trimString m = "" then []
        else [Output.transcription (toString clock ++ "-model")
          (trimString m) Sender.model]) ∧
    ((finalizeTurn clock u m).2.1 = if trimString u = "" then u else "") ∧
    ((finalizeTurn clock u m).2.2 = if trimString m = "" then m else "") ∧
    ((finalizeTurn clock u m).1 =
      (finalizeTurn clock u m).1.filter
          (fun o => isUserEntry o || isUserFinalEvent o) ++
        (finalizeTurn clock u m).1.filter isModelEntry) := by
  by_cases hu : trimString u = "" <;> by_cases hm : trimString m = "" <;>
    simp [finalizeTurn, hu, hm, isUserEntry, isModelEntry, isUserFinalEvent]

/-- C10: a buffer that is non-empty but trims to empty (whitespace only)
yields no transcript entry at turn completion and is not cleared: its
content persists unchanged into the next turn, for the user and the
model buffer alike. -/
theorem whitespace_buffer_persists (clock : ℕ) (u m : String) :
    (u ≠ "" → trimString u = "" →
      (finalizeTurn clock u m).1.filter isUserEntry = [] ∧
        (finalizeTurn clock u m).2.1 = u) ∧
    (m ≠ "" → trimString m = "" →
      (finalizeTurn clock u m).1.filter isModelEntry = [] ∧
        (finalizeTurn clock u m).2.2 = m) := by
  constructor
  · intro _ hu
    by_cases hm : trimString m = "" <;>
      simp [finalizeTurn, hu, hm, isUserEntry, isModelEntry, isUserFinalEvent]
  · intro _ hm
    by_cases hu : trimString u = "" <;>
      simp [finalizeTurn, hu, hm, isUserEntry, isModelEntry, isUserFinalEvent]

theorem whitespace_buffer_persists_witness :
    ((" " : String) ≠ "" ∧ trimString (" " : String) = "") ∧
    ((finalizeTurn 0 " " " ").1.filter isUserEntry = [] ∧
      (finalizeTurn 0 " " " ").2.1 = " ") ∧
    ((finalizeTurn 0 " " " ").1.filter isModelEntry = [] ∧
      (finalizeTurn 0 " " " ").2.2 = " ") :=
  ⟨⟨by decide, by decide⟩,
    (whitespace_buffer_persists 0 " " " ").1 (by decide) (by decide),
    (whitespace_buffer_persists 0 " " " ").2 (by decide) (by decide)⟩

/-! ## Theorems: tool-call orchestration -/

def defaultCall : FunctionCall :=
  { id := "", name := "", argsQuery := none, argsTopK := none }

def defaultResponse : FunctionResponse :=
  { id := "", name := "", response := .error "" }

def isToolResponseOut : Output → Bool
  | .toolResponse _ => true
  | _ => false

theorem handleToolCalls_length (env : Env) (fcs : List FunctionCall) :
    (handleToolCalls env fcs).1.length = fcs.length := by
  induction fcs with
  | nil => rfl
  | cons fc rest ih => simp [handleToolCalls, ih]

theorem handleToolCalls_getD (env : Env) :
    ∀ (fcs : List FunctionCall) (i : ℕ), i < fcs.length →
      (handleToolCalls env fcs).1.getD i defaultResponse =
        (respondOne env (fcs.getD i defaultCall)).1 := by
  intro fcs
  induction fcs with
  | nil =>
      intro i h
      simp at h
  | cons fc rest ih =>
      intro i h
      cases i with
      | zero => simp [handleToolCalls]
      | succ j =>
          have hj : j < rest.length := by simpa using h
          simpa [handleToolCalls] using ih j hj

theorem handleToolCalls_no_toolResponse (env : Env) :
    ∀ (fcs : List FunctionCall) (o : Output),
      o ∈ (handleToolCalls env fcs).2 → isToolResponseOut o = false := by
  intro fcs
  induction fcs with
  | nil =>
      intro o ho
      simp [handleToolCalls] at ho
  | cons fc rest ih =>
      intro o ho
      simp only [handleToolCalls, List.mem_append] at ho
      rcases ho with ho | ho
      · unfold respondOne at ho
        by_cases hname : fc.name = "retrieve_context" <;>
          simp [hname] at ho
        rcases ho with ho | ho <;> simp [ho, isToolResponseOut]
      · exact ih o ho

theorem retrieveInvoked_only_for_recognized (env : Env) :
    ∀ (fcs : List FunctionCall) (q : String) (k : Option Int),
      Output.retrieveInvoked q k ∈ (handleToolCalls env fcs).2 →
      ∃ fc ∈ fcs, fc.name = "retrieve_context" := by
  intro fcs
  induction fcs with
  | nil =>
      intro q k hq
      simp [handleToolCalls] at hq
  | cons fc rest ih =>
      intro q k hq
      simp only [handleToolCalls, List.mem_append] at hq
      rcases hq with hq | hq
      · refine ⟨fc, by simp, ?_⟩
        unfold respondOne at hq
        by_cases hname : fc.name = "retrieve_context"
        · exact hname
        · simp [hname] at hq
      · obtain ⟨fc', hmem, hname⟩ := ih q k hq
        exact ⟨fc', by simp [hmem], hname⟩

/-- C6: every function-call request in an inbound batch produces exactly
one response tagged with the original call id — a `retrieve_context`
request carries the retrieval result, any other name an error payload
naming that tool, produced without any external call — and all responses
go out together in a single outbound tool-response message (the engine
state is untouched). -/
theorem tool_call_batch (env : Env) (st : EngineState)
    (fcs : List FunctionCall) (hctx : st.ctxOpen = true)
    (hsess : st.sessionOpen = true) (hne : fcs ≠ []) :
    ((onmessage env st
        { toolCall := some fcs, serverContent := none }).2.filter
        isToolResponseOut =
      [Output.toolResponse (handleToolCalls env fcs).1]) ∧
    (onmessage env st { toolCall := some fcs, serverContent := none }).1 =
      st ∧
    (handleToolCalls env fcs).1.length = fcs.length ∧
    (∀ i, i < fcs.length →
      ((handleToolCalls env fcs).1.getD i defaultResponse).id =
        (fcs.getD i defaultCall).id ∧
      ((fcs.getD i defaultCall).name = "retrieve_context" →
        ((handleToolCalls env fcs).1.getD i defaultResponse).response =
          ToolPayload.result (retrieveContextTool env
            (trimString ((fcs.getD i defaultCall).argsQuery.getD ""))
            (normTopK (fcs.getD i defaultCall).argsTopK))) ∧
      ((fcs.getD i defaultCall).name ≠ "retrieve_context" →
        ((handleToolCalls env fcs).1.getD i defaultResponse).response =
          ToolPayload.error
            ("Unknown tool: " ++ (fcs.getD i defaultCall).name))) ∧
    (∀ q k, Output.retrieveInvoked q k ∈
        (onmessage env st { toolCall := some fcs, serverContent := none }).2 →
      ∃ fc ∈ fcs, fc.name = "retrieve_context") := by
  have hmsg : (onmessage env st
      { toolCall := some fcs, serverContent := none }) =
      (st, (handleToolCalls env fcs).2 ++
        [Output.toolResponse (handleToolCalls env fcs).1]) := by
    unfold onmessage
    rw [if_neg (by simp [hctx])]
    simp only []
    rw [if_neg (by simp [hne]), if_neg (by simp [hsess])]
  refine ⟨?_, ?_, handleToolCalls_length env fcs, ?_, ?_⟩
  · rw [hmsg]
    simp only [List.filter_append]
    rw [List.filter_eq_nil.mpr
      (fun o ho => by
        simp [handleToolCalls_no_toolResponse env fcs o ho])]
    simp [isToolResponseOut]
  · rw [hmsg]
  · intro i hi
    rw [handleToolCalls_getD env fcs i hi]
    unfold respondOne
    by_cases hname : (fcs.getD i defaultCall).name = "retrieve_context"
    · rw [if_pos hname]
      exact ⟨rfl, fun _ => rfl, fun hn => absurd hname hn⟩
    · rw [if_neg hname]
      exact ⟨rfl, fun hn => absurd hn hname, fun _ => rfl⟩
  · intro q k hq
    rw [hmsg] at hq
    simp only [List.mem_append, List.mem_singleton] at hq
    rcases hq with hq | hq
    · exact retrieveInvoked_only_for_recognized env fcs q k hq
    · cases hq

def toolEnvW : Env :=
  { now := 0, clock := 0, decodeAudio := fun _ => Except.error "e",
    fetchRetrieve := fun q _ => Except.ok
      { context := "ctx for " ++ q, sources := ["s1"] } }

def toolStW : EngineState :=
  { connState := ConnectionState.CONNECTED, errorMsg := none,
    ctxOpen := true, sessionOpen := true, cursor := 0, nextId := 0,
    active := [], userBuf := "", modelBuf := "" }

def toolCallsW : List FunctionCall :=
  [{ id := "1", name := "retrieve_context",
      argsQuery := some "refund policy", argsTopK := none },
    { id := "2", name := "unknown_tool", argsQuery := none,
      argsTopK := none }]

theorem tool_call_batch_witness :
    (toolStW.ctxOpen = true ∧ toolStW.sessionOpen = true ∧
      toolCallsW ≠ []) ∧
    ((onmessage toolEnvW toolStW
        { toolCall := some toolCallsW, serverContent := none }).2.filter
        isToolResponseOut =
      [Output.toolResponse (handleToolCalls toolEnvW toolCallsW).1]) ∧
    (handleToolCalls toolEnvW toolCallsW).1.length = toolCallsW.length :=
  ⟨⟨rfl, rfl, by simp [toolCallsW]⟩,
    (tool_call_batch toolEnvW toolStW toolCallsW rfl rfl
      (by simp [toolCallsW])).1,
    (tool_call_batch toolEnvW toolStW toolCallsW rfl rfl
      (by simp [toolCallsW])).2.2.1⟩

/-! ## Theorems: a single inbound message never tears the session down -/

theorem processParts_preserves (env : Env) :
    ∀ (parts : List (Option String)) (st : EngineState),
      ((processParts env st parts).1.connState = st.connState ∧
        (processParts env st parts).1.sessionOpen = st.sessionOpen) ∧
      Output.teardown ∉ (processParts env st parts).2.1 := by
  intro parts
  induction parts with
  | nil =>
      intro st
      simp [processParts]
  | cons p rest ih =>
      intro st
      cases p with
      | none => simpa [processParts] using ih st
      | some b64 =>
          cases hdec : env.decodeAudio b64 with
          | error e => simp [processParts, hdec]
          | ok dur =>
              have hrec := ih { st with
                cursor := max st.cursor env.now + dur,
                nextId := st.nextId + 1, active := st.active ++ [st.nextId] }
              simp only [processParts, hdec]
              refine ⟨⟨hrec.1.1, hrec.1.2⟩, ?_⟩
              simp only [List.mem_cons, not_or]
              exact ⟨by simp, hrec.2⟩

theorem appendDeltas_preserves (sc : ServerContent) (st : EngineState) :
    (appendDeltas sc st).connState = st.connState ∧
    (appendDeltas sc st).sessionOpen = st.sessionOpen := by
  unfold appendDeltas
  cases sc.outputTranscriptionText <;> cases sc.inputTranscriptionText <;>
    simp <;> split_ifs <;> simp

theorem finalizeTurn_no_teardown (clock : ℕ) (u m : String) :
    Output.teardown ∉ (finalizeTurn clock u m).1 := by
  by_cases hu : trimString u = "" <;> by_cases hm : trimString m = "" <;>
    simp [finalizeTurn, hu, hm]

theorem processContent_preserves (env : Env) (st : EngineState)
    (sc : ServerContent) :
    (processContent env st sc).1.connState = st.connState ∧
    (processContent env st sc).1.sessionOpen = st.sessionOpen ∧
    Output.teardown ∉ (processContent env st sc).2 := by
  obtain ⟨⟨hconn, hsess⟩, houts⟩ := processParts_preserves env sc.parts st
  cases hthrow : (processParts env st sc.parts).2.2 with
  | some e =>
      simp only [processContent, hthrow]
      refine ⟨hconn, hsess, ?_⟩
      simp only [List.mem_append, List.mem_singleton, not_or]
      exact ⟨houts, by simp⟩
  | none =>
      simp only [processContent, hthrow]
      by_cases hi : sc.interrupted = true <;>
        by_cases htc : sc.turnComplete = true <;>
          simp only [hi, htc, if_true, if_false, Bool.false_eq_true,
            reduceIte]
      · refine ⟨?_, ?_, ?_⟩
        · rw [(appendDeltas_preserves sc _).1]
          simp only [handleInterrupted]
          exact hconn
        · rw [(appendDeltas_preserves sc _).2]
          simp only [handleInterrupted]
          exact hsess
        · simp only [handleInterrupted, List.mem_append, not_or]
          refine ⟨⟨houts, by simp⟩, finalizeTurn_no_teardown env.clock _ _⟩
      · refine ⟨?_, ?_, ?_⟩
        · rw [(appendDeltas_preserves sc _).1]
          simp only [handleInterrupted]
          exact hconn
        · rw [(appendDeltas_preserves sc _).2]
          simp only [handleInterrupted]
          exact hsess
        · simp only [handleInterrupted, List.mem_append, not_or]
          exact ⟨houts, by simp⟩
      · refine ⟨?_, ?_, ?_⟩
        · rw [(appendDeltas_preserves sc _).1]
          exact hconn
        · rw [(appendDeltas_preserves sc _).2]
          exact hsess
        · simp only [List.mem_append, not_or]
          refine ⟨⟨houts, by simp⟩, finalizeTurn_no_teardown env.clock _ _⟩
      · refine ⟨?_, ?_, ?_⟩
        · rw [(appendDeltas_preserves sc _).1]
          exact hconn
        · rw [(appendDeltas_preserves sc _).2]
          exact hsess
        · simp only [List.mem_append, not_or]
          exact ⟨houts, by simp⟩

theorem handleToolCalls_no_teardown (env : Env) :
    ∀ (fcs : List FunctionCall),
      Output.teardown ∉ (handleToolCalls env fcs).2 := by
  intro fcs
  induction fcs with
  | nil => simp [handleToolCalls]
  | cons fc rest ih =>
      simp only [handleToolCalls, List.mem_append, not_or]
      refine ⟨?_, ih⟩
      unfold respondOne
      by_cases hname : fc.name = "retrieve_context" <;> simp [hname]

/-- C7: processing a single inbound message never tears the session down
or moves the connection state out of its current value: the connection
state and session handle are preserved by every message, teardown is
never among the effects, and a failing external retrieval degrades to
the "no information" payload inside `retrieveContextTool` instead of
propagating. -/
theorem message_never_tears_down_session (env : Env) (st : EngineState)
    (msg : LiveServerMessage) :
    (onmessage env st msg).1.connState = st.connState ∧
    (onmessage env st msg).1.sessionOpen = st.sessionOpen ∧
    Output.teardown ∉ (onmessage env st msg).2 ∧
    (∀ q k e, env.fetchRetrieve q k = Except.error e →
      retrieveContextTool env q k =
        { context := "Error retrieving context.", sources := [] }) := by
  have hretr : ∀ q k e, env.fetchRetrieve q k = Except.error e →
      retrieveContextTool env q k =
        { context := "Error retrieving context.", sources := [] } := by
    intro q k e he
    unfold retrieveContextTool
    rw [he]
  by_cases hctx : st.ctxOpen = false
  · refine ⟨?_, ?_, ?_, hretr⟩ <;> simp [onmessage, hctx]
  · cases hmtc : msg.toolCall with
    | none =>
        cases hmsc : msg.serverContent with
        | none =>
            refine ⟨?_, ?_, ?_, hretr⟩ <;> simp [onmessage, hctx, hmtc, hmsc]
        | some sc =>
            have hres : onmessage env st msg = processContent env st sc := by
              unfold onmessage
              rw [if_neg hctx, hmtc, hmsc]
            obtain ⟨h1, h2, h3⟩ := processContent_preserves env st sc
            rw [hres]
            exact ⟨h1, h2, h3, hretr⟩
    | some fcs =>
        by_cases hne : fcs.isEmpty
        · cases hmsc : msg.serverContent with
          | none =>
              refine ⟨?_, ?_, ?_, hretr⟩ <;>
                simp [onmessage, hctx, hmtc, hmsc, hne]
          | some sc =>
              have hres : onmessage env st msg = processContent env st sc := by
                unfold onmessage
                rw [if_neg hctx, hmtc, hmsc]
                simp [hne]
              obtain ⟨h1, h2, h3⟩ := processContent_preserves env st sc
              rw [hres]
              exact ⟨h1, h2, h3, hretr⟩
        · by_cases hsess : st.sessionOpen = false
          · refine ⟨?_, ?_, ?_, hretr⟩ <;>
              simp [onmessage, hctx, hmtc, hne, hsess]
          · have hres : onmessage env st msg =
                (st, (handleToolCalls env fcs).2 ++
                  [Output.toolResponse (handleToolCalls env fcs).1]) := by
              unfold onmessage
              rw [if_neg hctx, hmtc]
              simp [hne, hsess]
            rw [hres]
            refine ⟨rfl, rfl, ?_, hretr⟩
            simp only [List.mem_append, List.mem_singleton, not_or]
            exact ⟨handleToolCalls_no_teardown env fcs, by simp⟩

theorem message_never_tears_down_session_witness :
    ((onmessage
        (Env.mk 0 0 (fun _ => Except.error "e")
          (fun _ _ => Except.error "down"))
        toolStW interruptedOnlyMsg).1.connState = toolStW.connState ∧
      (onmessage
        (Env.mk 0 0 (fun _ => Except.error "e")
          (fun _ _ => Except.error "down"))
        toolStW interruptedOnlyMsg).1.sessionOpen = toolStW.sessionOpen ∧
      Output.teardown ∉ (onmessage
        (Env.mk 0 0 (fun _ => Except.error "e")
          (fun _ _ => Except.error "down"))
        toolStW interruptedOnlyMsg).2) ∧
    ((Env.mk 0 0 (fun _ => Except.error "e")
        (fun _ _ => Except.error "down")).fetchRetrieve "q" none =
      Except.error "down" ∧
      retrieveContextTool
        (Env.mk 0 0 (fun _ => Except.error "e")
          (fun _ _ => Except.error "down")) "q" none =
        { context := "Error retrieving context.", sources := [] }) :=
  ⟨⟨(message_never_tears_down_session _ toolStW interruptedOnlyMsg).1,
    (message_never_tears_down_session _ toolStW interruptedOnlyMsg).2.1,
    (message_never_tears_down_session _ toolStW interruptedOnlyMsg).2.2.1⟩,
    rfl,
    (message_never_tears_down_session
      (Env.mk 0 0 (fun _ => Except.error "e")
        (fun _ _ => Except.error "down"))
      toolStW interruptedOnlyMsg).2.2.2 "q" none "down" rfl⟩
